import Mathlib

/-!
Shallow embedding of the `git-bump` tag-bumping tool (`src/lib.rs`,
`src/main.rs`, `src/cli.rs`) together with the behaviour of its two
library collaborators that carry the version logic: the `semver` crate
(version type, parsing, precedence ordering, `increment_*`) and the
relevant parts of `git2` (tag listing by glob pattern, tag creation,
push ref-specs, the credential callback).  Machine integers (`u64`
version components) are modelled as `Nat`; the source never relies on
wrap-around.  I/O is modelled explicitly: operator input as a list of
characters, terminal output as a list of written lines (ANSI colouring
by the `colored` crate is presentation only and not modelled), and the
repository as an explicit state record threaded through each operation.
-/

namespace GitBump

/-- Pre-release / build identifier of a semantic version, as in the
`semver` crate: numeric identifiers compare numerically and below
alphanumeric ones. -/
inductive Identifier where
  | numeric (n : Nat)
  | alphaNumeric (s : String)
deriving DecidableEq

/-- Parsed semantic version, mirroring `semver::Version`
(major/minor/patch plus optional pre-release and build metadata). -/
structure Version where
  major : Nat
  minor : Nat
  patch : Nat
  pre : List Identifier
  build : List Identifier
deriving DecidableEq

/-- Error type of the semver parser, mirroring
`semver::SemVerError::ParseError(String)` (the single variant matched
in `src/lib.rs`). -/
inductive SemVerError where
  | ParseError (msg : String)
deriving DecidableEq

/-- Bump level, mirroring `enum Bump { Major, Minor, Patch }` in
`src/lib.rs`. -/
inductive Bump where
  | Major
  | Minor
  | Patch
deriving DecidableEq

/-- Boolean list-prefix test, mirroring Rust slice/str `starts_with`. -/
def isPfxOf : List Char → List Char → Bool
  | [], _ => true
  | _ :: _, [] => false
  | a :: as, b :: bs => a == b && isPfxOf as bs

/-- Boolean substring test (used to state what a written report line
does or does not contain). -/
def containsSub (pat : List Char) : List Char → Bool
  | [] => pat.isEmpty
  | c :: rest => isPfxOf pat (c :: rest) || containsSub pat rest

/-- Split a character list at every occurrence of `c` (used for the
`.`-separated components of a semver string). -/
def splitOnChar (c : Char) : List Char → List (List Char)
  | [] => [[]]
  | x :: xs =>
    match splitOnChar c xs with
    | h :: t => if x == c then [] :: h :: t else (x :: h) :: t
    | [] => [[]]

/-- Split a character list at the first occurrence of `c`, returning
the part before it and, when `c` occurs, the part after it. -/
def breakFirst (c : Char) : List Char → List Char × Option (List Char)
  | [] => ([], none)
  | x :: xs =>
    if x == c then ([], some xs)
    else
      match breakFirst c xs with
      | (a, b) => (x :: a, b)

/-- Decimal value of a digit string. -/
def digitsToNat (cs : List Char) : Nat :=
  cs.foldl (fun acc c => acc * 10 + (c.toNat - 48)) 0

/-- Parse a numeric version component (nonempty, all digits), as the
semver parser does for major/minor/patch. -/
def parseNumeric (cs : List Char) : Option Nat :=
  if cs.isEmpty then none
  else if cs.all Char.isDigit then some (digitsToNat cs) else none

/-- Characters allowed in a pre-release/build identifier:
ASCII alphanumerics and `-`. -/
def isIdentChar (c : Char) : Bool :=
  c.isAlphanum || c == '-'

/-- Parse one pre-release/build identifier: numeric when all digits,
otherwise alphanumeric over the allowed character set. -/
def parseIdentifierPart (cs : List Char) : Option Identifier :=
  if cs.isEmpty then none
  else if cs.all Char.isDigit then some (Identifier.numeric (digitsToNat cs))
  else if cs.all isIdentChar then some (Identifier.alphaNumeric (String.mk cs))
  else none

/-- Strip leading and trailing whitespace (the semver parser trims its
input before parsing). -/
def trimWs (cs : List Char) : List Char :=
  ((cs.dropWhile Char.isWhitespace).reverse.dropWhile Char.isWhitespace).reverse

/-- Parse a dot-separated identifier list (pre-release or build part). -/
def parseIdentList (cs : List Char) : Option (List Identifier) :=
  (splitOnChar '.' cs).mapM parseIdentifierPart

/-- Model of `semver::Version::parse` (semver 2.0 grammar as accepted
by the `semver` crate used in `src/lib.rs`): optional build metadata
after the first `+`, optional pre-release after the first `-` before
that, and exactly three numeric dot-separated core components. -/
def Version.parse (s : String) : Except SemVerError Version :=
  let cs := trimWs s.data
  let afterPlus := breakFirst '+' cs
  let afterHyphen := breakFirst '-' afterPlus.1
  match (splitOnChar '.' afterHyphen.1).mapM parseNumeric with
  | some [maj, mnr, pat] =>
    let preIds := match afterHyphen.2 with
      | none => some []
      | some p => parseIdentList p
    let buildIds := match afterPlus.2 with
      | none => some []
      | some b => parseIdentList b
    match preIds, buildIds with
    | some preL, some buildL =>
      Except.ok { major := maj, minor := mnr, patch := pat, pre := preL, build := buildL }
    | _, _ => Except.error (SemVerError.ParseError ("invalid identifier in " ++ s))
  | _ => Except.error (SemVerError.ParseError ("expected major.minor.patch in " ++ s))

/-- Display form of one identifier. -/
def identStr : Identifier → String
  | Identifier.numeric n => toString n
  | Identifier.alphaNumeric s => s

/-- Join strings with `.` separators. -/
def dotJoin : List String → String
  | [] => ""
  | [x] => x
  | x :: y :: xs => x ++ "." ++ dotJoin (y :: xs)

/-- Display form of a version, mirroring the `Display` impl of
`semver::Version` used by the `{}` format strings in the source. -/
def versionToString (v : Version) : String :=
  toString v.major ++ "." ++ toString v.minor ++ "." ++ toString v.patch
    ++ (if v.pre.isEmpty then "" else "-" ++ dotJoin (v.pre.map identStr))
    ++ (if v.build.isEmpty then "" else "+" ++ dotJoin (v.build.map identStr))

/-- Three-way comparison on naturals, mirroring `u64`s `Ord`. -/
def natCmp (a b : Nat) : Ordering :=
  if a < b then Ordering.lt else if b < a then Ordering.gt else Ordering.eq

/-- Lexicographic comparison of character lists (Rust string ordering
restricted to the ASCII identifiers that occur in versions). -/
def charListCmp : List Char → List Char → Ordering
  | [], [] => Ordering.eq
  | [], _ :: _ => Ordering.lt
  | _ :: _, [] => Ordering.gt
  | a :: as, b :: bs =>
    match natCmp a.toNat b.toNat with
    | Ordering.eq => charListCmp as bs
    | r => r

/-- Identifier comparison of the `semver` crate: numeric identifiers
compare numerically and precede alphanumeric ones. -/
def identCmp : Identifier → Identifier → Ordering
  | Identifier.numeric a, Identifier.numeric b => natCmp a b
  | Identifier.numeric _, Identifier.alphaNumeric _ => Ordering.lt
  | Identifier.alphaNumeric _, Identifier.numeric _ => Ordering.gt
  | Identifier.alphaNumeric a, Identifier.alphaNumeric b => charListCmp a.data b.data

/-- Lexicographic comparison of identifier lists (a strict prefix
compares below the longer list), as for Rust `Vec<Identifier>`. -/
def identsCmp : List Identifier → List Identifier → Ordering
  | [], [] => Ordering.eq
  | [], _ :: _ => Ordering.lt
  | _ :: _, [] => Ordering.gt
  | a :: as, b :: bs =>
    match identCmp a b with
    | Ordering.eq => identsCmp as bs
    | r => r

/-- Semver precedence comparison, mirroring the `Ord` impl of
`semver::Version`: major, then minor, then patch numerically; a
version without pre-release identifiers compares above one with them;
otherwise pre-release lists compare lexicographically.  Build metadata
is ignored. -/
def Version.cmp (a b : Version) : Ordering :=
  match natCmp a.major b.major with
  | Ordering.eq =>
    match natCmp a.minor b.minor with
    | Ordering.eq =>
      match natCmp a.patch b.patch with
      | Ordering.eq =>
        match a.pre, b.pre with
        | [], [] => Ordering.eq
        | [], _ :: _ => Ordering.gt
        | _ :: _, [] => Ordering.lt
        | _ :: _, _ :: _ => identsCmp a.pre b.pre
      | r => r
    | r => r
  | r => r

/-- Strict semver precedence, mirroring `<` from the derived
`PartialOrd`/`Ord` of `semver::Version`. -/
def Version.lt (a b : Version) : Bool := Version.cmp a b == Ordering.lt

/-- Model of `semver::Version::increment_major`: bump major, reset
minor and patch, clear pre-release and build metadata. -/
def Version.increment_major (v : Version) : Version :=
  { v with major := v.major + 1, minor := 0, patch := 0, pre := [], build := [] }

/-- Model of `semver::Version::increment_minor`: bump minor, reset
patch, clear pre-release and build metadata. -/
def Version.increment_minor (v : Version) : Version :=
  { v with minor := v.minor + 1, patch := 0, pre := [], build := [] }

/-- Model of `semver::Version::increment_patch`: bump patch, clear
pre-release and build metadata. -/
def Version.increment_patch (v : Version) : Version :=
  { v with patch := v.patch + 1, pre := [], build := [] }

/-- The bump dispatch performed by `Bumper::bump` in `src/lib.rs`
(lines 101-106) and `_run` in `src/main.rs` (lines 52-57): one
`increment_*` call selected by the bump level. -/
def applyBump : Bump → Version → Version
  | Bump.Major, v => v.increment_major
  | Bump.Minor, v => v.increment_minor
  | Bump.Patch, v => v.increment_patch

/-- Parse a version string, bump it at the given level, and render the
result (string-level view of the bump pipeline). -/
def bumpString (s : String) (lvl : Bump) : Except SemVerError String :=
  (Version.parse s).map (fun v => versionToString (applyBump lvl v))

/-- Fuelled worker for `trimStartMatches`; fuel `s.length` always
suffices because every step removes a nonempty matched pattern. -/
def trimListAux (p : List Char) : Nat → List Char → List Char
  | 0, s => s
  | fuel + 1, s =>
    if p.isEmpty then s
    else if isPfxOf p s then trimListAux p fuel (s.drop p.length)
    else s

/-- Repeatedly remove the leading pattern from a character list. -/
def trimList (p s : List Char) : List Char := trimListAux p s.length s

/-- Model of Rust `str::trim_start_matches`: remove every leading
occurrence of the pattern (an empty pattern removes nothing). -/
def trimStartMatches (pat s : String) : String := String.mk (trimList pat.data s.data)

/-- Concatenation of `k` copies of `p` in front of `s` (describes a
tag name built from repeated prefixes). -/
def repCat (p : String) : Nat → String → String
  | 0, s => s
  | k + 1, s => p ++ repCat p k s

/-- Fuelled glob matcher supporting the `*` wildcard, modelling the
pattern matching performed by `git2::Repository::tag_names` on the
`<prefix>*` patterns the source constructs. -/
def globMatchFuel : Nat → List Char → List Char → Bool
  | 0, _, _ => false
  | fuel + 1, pat, s =>
    match pat, s with
    | [], [] => true
    | [], _ :: _ => false
    | '*' :: ps, t =>
      globMatchFuel fuel ps t
        || (match t with
            | [] => false
            | _ :: t2 => globMatchFuel fuel ('*' :: ps) t2)
    | _ :: _, [] => false
    | p :: ps, c :: cs => p == c && globMatchFuel fuel ps cs

/-- Glob match on strings; the fuel bound exceeds every possible
number of recursion steps. -/
def globMatch (pat s : String) : Bool :=
  globMatchFuel (pat.data.length + s.data.length + 1) pat.data s.data

/-- Model of `Repository::tag_names(pattern)`: all tag names when no
pattern is given, otherwise the names matching the glob pattern. -/
def tagNames (tags : List String) (pattern : Option String) : List String :=
  match pattern with
  | none => tags
  | some pat => tags.filter (fun t => globMatch pat t)

/-- HEAD of the repository: whether it refers to a branch, the branch
name, the commit id it peels to, and that commit summary line. -/
structure Head where
  isBranch : Bool
  branchName : String
  commitId : String
  summary : String
deriving DecidableEq

/-- An annotated tag object as created by `git2::Repository::tag`:
reference name, target commit, tag message and tagger signature. -/
structure TagObj where
  name : String
  target : String
  message : String
  tagger : String
deriving DecidableEq

/-- Repository state: existing tag reference names, annotated tag
objects, HEAD (absent when unborn), the configured signature, and
whether a remote named `origin` exists. -/
structure Repo where
  tags : List String
  tagObjs : List TagObj
  head? : Option Head
  signature : String
  hasOrigin : Bool
deriving DecidableEq

/-- The `Bumper` of `src/lib.rs`: configured prefix, the operator
input channel (one byte read per `read_char` call) and the repository. -/
structure Bumper where
  pfx : Option String
  input : List Char
  repo : Repo
deriving DecidableEq

/-- Error component of a parse result, modelling the
`Result::unwrap_err` applied to the error partition. -/
def errOption : Except SemVerError Version → Option SemVerError
  | Except.error e => some e
  | Except.ok _ => none

/-- Model of `Bumper::parse_tags` (`src/lib.rs` lines 115-129): strip
the configured prefix (empty when none) from each name with
`trim_start_matches`, parse each remainder, and partition the results
into parsed versions and parse errors. -/
def Bumper.parse_tags (pfx : Option String) (tags : List String) :
    List Version × List SemVerError :=
  let parsed := tags.map (fun tag => Version.parse (trimStartMatches (pfx.getD "") tag))
  let part := parsed.partition Except.isOk
  (part.1.filterMap Except.toOption, part.2.filterMap errOption)

/-- Model of the free function `parse_tags` (`src/lib.rs` lines
185-197), which strips the fixed prefix `"v"`. -/
def parse_tags (tags : List String) : List Version × List SemVerError :=
  let parsed := tags.map (fun tag => Version.parse (trimStartMatches "v" tag))
  let part := parsed.partition Except.isOk
  (part.1.filterMap Except.toOption, part.2.filterMap errOption)

/-- Total order used for sorting versions: `cmp` is not greater,
mirroring Rust `Vec::sort` over the `Ord` of `semver::Version`. -/
def vle (a b : Version) : Bool := !(Version.cmp a b == Ordering.gt)

/-- Stable insertion into a sorted list under `vle`. -/
def insertSorted (v : Version) : List Version → List Version
  | [] => [v]
  | x :: xs => if vle v x then v :: x :: xs else x :: insertSorted v xs

/-- Stable ascending sort of versions, modelling `versions.sort()`
(a stable sort under the same total order yields the same list). -/
def sortVersions (l : List Version) : List Version := l.foldr insertSorted []

/-- The glob pattern `Bumper::bump` constructs: `<prefix>*` when a
prefix is configured, otherwise no pattern. -/
def Bumper.tagPattern (b : Bumper) : Option String := b.pfx.map (fun p => p ++ "*")

/-- The successfully parsed versions obtained during tag discovery in
`Bumper::bump`. -/
def Bumper.versionsOf (b : Bumper) : List Version :=
  (Bumper.parse_tags b.pfx (tagNames b.repo.tags (Bumper.tagPattern b))).1

/-- The "current" version of `Bumper::bump`: last element of the
sorted parsed versions. -/
def Bumper.current? (b : Bumper) : Option Version :=
  (sortVersions (Bumper.versionsOf b)).getLast?

/-- The line written by `Bumper::bump` when no version was parsed
(`src/lib.rs` lines 90-95); the red colouring is presentation only. -/
def notFoundLine (pfx : Option String) : String :=
  "version tag not found (pattern: " ++ pfx.getD "" ++ ")"

/-- The menu written by each iteration of `Bumper::prompt_bump`. -/
def promptMenu (current : Version) : List String :=
  ["select bump version (current: " ++ versionToString current ++ ")",
   "[1] major",
   "[2] minor",
   "[3] patch"]

/-- Model of `Bumper::prompt_bump` (`src/lib.rs` lines 131-147): write
the menu, read one character; `1`/`2`/`3` select a level, anything
else reports the unexpected input and loops; exhausted input models
the `read_char` panic as an error. -/
def prompt_bump (current : Version) :
    List Char → List String → List String × Except String (Bump × List Char)
  | input, out =>
    let out2 := out ++ promptMenu current
    match input with
    | [] => (out2, Except.error "read input failed")
    | '1' :: rest => (out2, Except.ok (Bump.Major, rest))
    | '2' :: rest => (out2, Except.ok (Bump.Minor, rest))
    | '3' :: rest => (out2, Except.ok (Bump.Patch, rest))
    | c :: rest => prompt_bump current rest (out2 ++ ["unexpect input " ++ String.mk [c]])

/-- The lines written by `Bumper::confirm_bump` before reading the
answer (`src/lib.rs` lines 158-168); colouring is presentation only. -/
def confirmLines (pfx : Option String) (hd : Head) (current bumped : Version) : List String :=
  ["branch: " ++ hd.branchName,
   "commit:",
   "       id: " ++ hd.commitId,
   "  summary: " ++ hd.summary,
   "bump version " ++ pfx.getD "" ++ versionToString current ++ " -> "
     ++ pfx.getD "" ++ versionToString bumped ++ " [y/N]"]

/-- Model of `Bumper::confirm_bump` (`src/lib.rs` lines 149-172):
resolving HEAD fails when absent or detached (`Branch::name` errors on
a non-branch reference); otherwise the branch/commit summary and the
`[y/N]` question are written, one character is read, and the answer is
affirmative exactly when that character lowercased is `y`. -/
def confirm_bump (pfx : Option String) (repo : Repo) (current bumped : Version)
    (input : List Char) (out : List String) :
    List String × Except String (Bool × List Char) :=
  match repo.head? with
  | none => (out, Except.error "HEAD reference not found")
  | some hd =>
    if hd.isBranch then
      let out2 := out ++ confirmLines pfx hd current bumped
      match input with
      | [] => (out2, Except.error "read input failed")
      | c :: rest => (out2, Except.ok (c.toLower == 'y', rest))
    else (out, Except.error "HEAD is not a branch reference")

/-- Model of `Bumper::bump` (`src/lib.rs` lines 69-114), the workflow
wired into the binary: discover tags by pattern, parse and sort them,
report and return when no version was found, otherwise prompt for a
level, compute the bumped version, confirm, write `canceled` on a
non-affirmative answer — and in every case return without creating or
pushing any tag.  The result is the final repository state, the lines
written, and the returned `Result`. -/
def Bumper.bump (b : Bumper) : Repo × List String × Except String Unit :=
  match Bumper.current? b with
  | none => (b.repo, [notFoundLine b.pfx], Except.ok ())
  | some current =>
    match prompt_bump current b.input [] with
    | (out, Except.error e) => (b.repo, out, Except.error e)
    | (out, Except.ok (lvl, rest)) =>
      let bumped := applyBump lvl current
      match confirm_bump b.pfx b.repo current bumped rest out with
      | (out2, Except.error e) => (b.repo, out2, Except.error e)
      | (out2, Except.ok (confirmed, _rest2)) =>
        if confirmed then (b.repo, out2, Except.ok ())
        else (b.repo, out2 ++ ["canceled"], Except.ok ())

/-- Exit status wiring of `main` in `src/main.rs`: an `Err` from `run`
exits with status 1, otherwise the process exits with status 0. -/
def exitCode (r : Except String Unit) : Nat :=
  match r with
  | Except.ok _ => 0
  | Except.error _ => 1

/-- The `Config` of `src/lib.rs` (prefix and repository path). -/
structure Config where
  pfx : Option String
  repositoryPath : Option String

/-- `Config::default()`: prefix `"v"`, no explicit repository path. -/
def Config.default : Config := { pfx := some "v", repositoryPath := none }

/-- The workflow wired into the binary: `run` in `src/main.rs` calls
`Config::bump` with the default configuration, which builds a `Bumper`
and runs `Bumper::bump` (repository opening is environmental and
modelled by the given repository state). -/
def runWorkflow (repo : Repo) (input : List Char) : Repo × List String × Except String Unit :=
  Bumper.bump { pfx := Config.default.pfx, input := input, repo := repo }

/-- Model of `create_tag` (`src/lib.rs` lines 228-242): resolve HEAD,
fail with `"HEAD is not branch!"` when it is not a branch, otherwise
create the annotated tag `v<version>` at the HEAD commit with an empty
message and the configured signature (`git2::Repository::tag` with
`force = false` fails when the reference already exists).  The
repository state is returned unchanged on every failure. -/
def create_tag (version : Version) (repo : Repo) : Repo × Except String Unit :=
  match repo.head? with
  | none => (repo, Except.error "HEAD reference not found")
  | some hd =>
    if !hd.isBranch then (repo, Except.error "HEAD is not branch!")
    else
      let name := "v" ++ versionToString version
      if repo.tags.contains name then (repo, Except.error ("tag already exists: " ++ name))
      else
        ({ repo with
            tags := repo.tags ++ [name],
            tagObjs := repo.tagObjs
              ++ [{ name := name, target := hd.commitId, message := "", tagger := repo.signature }] },
         Except.ok ())

/-- Model of `push_tag` (`src/lib.rs` lines 244-288): fail when the
remote `origin` is missing, otherwise push the single ref-spec
`refs/tags/v<version>:refs/tags/v<version>`; the network transfer is
abstracted and the pushed ref-spec is returned. -/
def push_tag (version : Version) (repo : Repo) : Except String String :=
  if repo.hasOrigin then
    Except.ok ("refs/tags/v" ++ versionToString version
      ++ ":refs/tags/v" ++ versionToString version)
  else Except.error "remote origin not found"

/-- A credential produced by the callback in `push_tag`. -/
inductive Cred where
  | userpassPlain (username password : String)
  | sshKeyFromAgent (username : String)
deriving DecidableEq

/-- Model of the `credentials` callback registered in `push_tag`
(`src/lib.rs` lines 264-279), as a function of whether the remote
accepts `USER_PASS_PLAINTEXT` and of the credential-helper lookup
result: when user/pass is accepted, a successful helper lookup is
returned and a failed one falls back to the hardcoded pair
`ymgyt`/`bepythonic2` (the prompt is a `TODO` in the source);
otherwise SSH-agent authentication for user `ymgyt` is attempted. -/
def credentials_cb (allowsUserpassPlaintext : Bool)
    (helperResult : Option (String × String)) : Cred :=
  if allowsUserpassPlaintext then
    match helperResult with
    | some (u, p) => Cred.userpassPlain u p
    | none => Cred.userpassPlain "ymgyt" "bepythonic2"
  else Cred.sshKeyFromAgent "ymgyt"

/-- Version `1.2.3`. -/
def v123 : Version := { major := 1, minor := 2, patch := 3, pre := [], build := [] }

/-- Version `1.2.4`. -/
def v124 : Version := { major := 1, minor := 2, patch := 4, pre := [], build := [] }

/-- A HEAD on branch `main`. -/
def hdMain : Head :=
  { isBranch := true, branchName := "main", commitId := "0a1b2c", summary := "initial commit" }

/-- A repository on branch `main` with the single tag `v1.2.3`. -/
def repoMain : Repo :=
  { tags := ["v1.2.3"], tagObjs := [], head? := some hdMain,
    signature := "dev <dev@example.com>", hasOrigin := true }

/-- A repository whose only tag name `xyz` matches no `v*` pattern. -/
def repoXyz : Repo :=
  { tags := ["xyz"], tagObjs := [], head? := some hdMain,
    signature := "dev <dev@example.com>", hasOrigin := true }

/-- A repository with detached HEAD. -/
def repoDetached : Repo :=
  { tags := [], tagObjs := [],
    head? := some { isBranch := false, branchName := "", commitId := "0a1b2c", summary := "detached" },
    signature := "dev <dev@example.com>", hasOrigin := true }

/-- A repository on a branch with no tags yet. -/
def repoFresh : Repo :=
  { tags := [], tagObjs := [], head? := some hdMain,
    signature := "dev <dev@example.com>", hasOrigin := true }

/-- A bumper whose operator selects `patch` and answers `n`. -/
def bNeg : Bumper := { pfx := some "v", input := ['3', 'n'], repo := repoMain }

/-- A bumper whose operator selects `patch` and answers `y`. -/
def bYes : Bumper := { pfx := some "v", input := ['3', 'y'], repo := repoMain }

/-- A bumper over a repository without any matching version tag. -/
def bEmpty : Bumper := { pfx := some "v", input := [], repo := repoXyz }

theorem natCmp_self (n : Nat) : natCmp n n = Ordering.eq := by
  simp [natCmp]

theorem natCmp_lt_succ (n : Nat) : natCmp n (n + 1) = Ordering.lt := by
  simp [natCmp]

/-- C1: for every current version and selected bump level, the bump
operation produces Major -> (major+1, 0, 0), Minor -> (major, minor+1, 0),
Patch -> (major, minor, patch+1), dropping any pre-release/build
metadata; in particular bump(1.2.3, Patch) = 1.2.4,
bump(1.2.3, Minor) = 1.3.0, bump(1.2.3, Major) = 2.0.0, and
bump(1.2.3-rc1, Patch) = 1.2.4. -/
theorem bump_arithmetic :
    (∀ v : Version,
      applyBump Bump.Major v
          = { major := v.major + 1, minor := 0, patch := 0, pre := [], build := [] } ∧
      applyBump Bump.Minor v
          = { major := v.major, minor := v.minor + 1, patch := 0, pre := [], build := [] } ∧
      applyBump Bump.Patch v
          = { major := v.major, minor := v.minor, patch := v.patch + 1, pre := [], build := [] }) ∧
    bumpString "1.2.3" Bump.Patch = Except.ok "1.2.4" ∧
    bumpString "1.2.3" Bump.Minor = Except.ok "1.3.0" ∧
    bumpString "1.2.3" Bump.Major = Except.ok "2.0.0" ∧
    bumpString "1.2.3-rc1" Bump.Patch = Except.ok "1.2.4" :=
  ⟨fun _ => ⟨rfl, rfl, rfl⟩, rfl, rfl, rfl, rfl⟩

/-- C2: for every current version (pre-release metadata included) and
every bump level, the bumped version is strictly greater than the
current version under semver precedence ordering. -/
theorem bumped_gt_current (v : Version) (lvl : Bump) :
    Version.lt v (applyBump lvl v) = true := by
  cases lvl <;>
    simp [Version.lt, Version.cmp, applyBump, Version.increment_major,
      Version.increment_minor, Version.increment_patch, natCmp_self, natCmp_lt_succ] <;>
    rfl

theorem filter_isOk_filterMap_toOption (l : List (Except SemVerError Version)) :
    (l.filter Except.isOk).filterMap Except.toOption = l.filterMap Except.toOption := by
  induction l with
  | nil => rfl
  | cons x xs ih =>
    cases x <;>
      simp [List.filter_cons, Except.isOk, Except.toBool, Except.toOption, ih]

theorem filter_not_isOk_filterMap_err (l : List (Except SemVerError Version)) :
    (l.filter (not ∘ Except.isOk)).filterMap errOption = l.filterMap errOption := by
  induction l with
  | nil => rfl
  | cons x xs ih =>
    cases x <;>
      simp [List.filter_cons, Except.isOk, Except.toBool, errOption, ih, Function.comp]

theorem filterMap_ok_err_length (l : List (Except SemVerError Version)) :
    (l.filterMap Except.toOption).length + (l.filterMap errOption).length = l.length := by
  induction l with
  | nil => rfl
  | cons x xs ih =>
    cases x <;> simp [Except.toOption, errOption] <;> omega

/-- C3: tag parsing partitions every input name set into two disjoint
lists: each name whose prefix-stripped remainder parses as semver
contributes exactly that version to the valid list (and nothing to the
error list), each other name contributes exactly one entry to the
error list (and nothing to the valid list), so the lengths of the two
outputs always sum to the number of input names; the free `parse_tags`
is the same partition with the fixed prefix `"v"`.  Malformed names
are only collected here, never failures: the workflow functions over
these outputs return `Ok` results (see the tag-discovery theorems). -/
theorem parse_tags_partition (pfx : Option String) (tags : List String) :
    (Bumper.parse_tags pfx tags).1
        = tags.filterMap
            (fun t => (Version.parse (trimStartMatches (pfx.getD "") t)).toOption) ∧
    (Bumper.parse_tags pfx tags).2
        = tags.filterMap
            (fun t => errOption (Version.parse (trimStartMatches (pfx.getD "") t))) ∧
    (Bumper.parse_tags pfx tags).1.length + (Bumper.parse_tags pfx tags).2.length
        = tags.length ∧
    parse_tags tags = Bumper.parse_tags (some "v") tags := by
  refine ⟨?_, ?_, ?_, rfl⟩
  · show ((tags.map _).partition Except.isOk).1.filterMap Except.toOption = _
    rw [List.partition_eq_filter_filter]
    rw [filter_isOk_filterMap_toOption, List.filterMap_map]
    rfl
  · show ((tags.map _).partition Except.isOk).2.filterMap errOption = _
    rw [List.partition_eq_filter_filter]
    rw [filter_not_isOk_filterMap_err, List.filterMap_map]
    rfl
  · show (((tags.map _).partition Except.isOk).1.filterMap Except.toOption).length
        + (((tags.map _).partition Except.isOk).2.filterMap errOption).length = _
    rw [List.partition_eq_filter_filter, filter_isOk_filterMap_toOption,
      filter_not_isOk_filterMap_err]
    rw [List.filterMap_map, List.filterMap_map]
    have h := filterMap_ok_err_length
      (tags.map (fun t => Version.parse (trimStartMatches (pfx.getD "") t)))
    rw [List.filterMap_map, List.filterMap_map, List.length_map] at h
    exact h

/-- C4 counterexample: the claim quotes the report message
`no matching version tag found`; on a concrete repository whose only
tag matches no version, the workflow terminates successfully but no
written line contains that phrase — the actual message is
`version tag not found (pattern: v)`. -/
theorem not_found_message_counterexample :
    Bumper.versionsOf bEmpty = [] ∧
    (Bumper.bump bEmpty).2.2 = Except.ok () ∧
    ((Bumper.bump bEmpty).2.1.all
        (fun line => !containsSub "no matching version tag found".data line.data)) = true ∧
    (Bumper.bump bEmpty).2.1 = ["version tag not found (pattern: v)"] :=
  ⟨rfl, rfl, rfl, rfl⟩

/-- C4 (amended): if the list of successfully parsed versions is empty
after tag discovery, the workflow writes the single line
`version tag not found (pattern: <prefix>)` and terminates
successfully (exit status 0), leaving the repository (hence its tags)
unchanged and performing no push. -/
theorem no_versions_reports_not_found (b : Bumper)
    (h : Bumper.versionsOf b = []) :
    Bumper.bump b = (b.repo, [notFoundLine b.pfx], Except.ok ()) ∧
    exitCode (Bumper.bump b).2.2 = 0 := by
  have hc : Bumper.current? b = none := by
    rw [Bumper.current?, h]
    rfl
  have hb : Bumper.bump b = (b.repo, [notFoundLine b.pfx], Except.ok ()) := by
    rw [Bumper.bump, hc]
  exact ⟨hb, by rw [hb]; rfl⟩

/-- C4 witness: the amended theorem applied to the concrete repository
whose only tag name is `xyz`. -/
theorem no_versions_reports_not_found_witness :
    Bumper.bump bEmpty = (bEmpty.repo, [notFoundLine (some "v")], Except.ok ()) ∧
    exitCode (Bumper.bump bEmpty).2.2 = 0 :=
  no_versions_reports_not_found bEmpty rfl

/-- C5 counterexample: on a concrete detached-HEAD repository, tag
creation fails and creates no tag object, but the error message is
`HEAD is not branch!` (a plain boxed string error), which differs from
the message `HEAD is not a branch` quoted by the claim. -/
theorem detached_head_message_counterexample :
    (create_tag v123 repoDetached).2 = Except.error "HEAD is not branch!" ∧
    (("HEAD is not branch!" == "HEAD is not a branch") = false) ∧
    (create_tag v123 repoDetached).1 = repoDetached :=
  ⟨rfl, by decide, rfl⟩

/-- C5 (amended): when the repository HEAD does not reference a
branch, `create_tag` fails with the plain error message
`HEAD is not branch!` (the source raises no dedicated `InvalidState`
condition) and the repository — hence its set of tag objects — is
unchanged; when HEAD is a branch (and the tag name is fresh, since
`git2::Repository::tag` with `force = false` rejects an existing
name), an annotated tag at the HEAD commit with an empty message is
created. -/
theorem create_tag_checks_branch (repo : Repo) (v : Version) (hd : Head)
    (hh : repo.head? = some hd) :
    (hd.isBranch = false →
      create_tag v repo = (repo, Except.error "HEAD is not branch!")) ∧
    (hd.isBranch = true →
      repo.tags.contains ("v" ++ versionToString v) = false →
      create_tag v repo =
        ({ repo with
            tags := repo.tags ++ ["v" ++ versionToString v],
            tagObjs := repo.tagObjs
              ++ [{ name := "v" ++ versionToString v, target := hd.commitId,
                    message := "", tagger := repo.signature }] },
         Except.ok ())) := by
  constructor
  · intro hbr
    simp [create_tag, hh, hbr]
  · intro hbr hfresh
    have hns : ¬(("v" ++ versionToString v) ∈ repo.tags) := by
      simpa using hfresh
    simp [create_tag, hh, hbr, hns]

/-- C5 witness: the amended theorem applied to a concrete repository
on branch `main`, creating the annotated tag `v1.2.4` with an empty
message; the failure branch is exercised by the counterexample input. -/
theorem create_tag_checks_branch_witness :
    create_tag v124 repoMain =
      ({ repoMain with
          tags := repoMain.tags ++ ["v" ++ versionToString v124],
          tagObjs := repoMain.tagObjs
            ++ [{ name := "v" ++ versionToString v124, target := hdMain.commitId,
                  message := "", tagger := repoMain.signature }] },
       Except.ok ()) :=
  (create_tag_checks_branch repoMain v124 hdMain rfl).2 rfl (by decide)

/-- C6 counterexample: the created tag name and push ref-spec do not
use the configured discovery prefix: for the configured prefix
`release-` and bumped version `1.2.3`, the created annotated tag is
named `v1.2.3` (not `release-1.2.3`) and the pushed ref-spec mentions
no `release-` prefix either. -/
theorem tag_prefix_counterexample :
    (create_tag v123 repoFresh).1.tags = ["v1.2.3"] ∧
    ((("v1.2.3" : String) == "release-" ++ versionToString v123) = false) ∧
    push_tag v123 repoFresh = Except.ok "refs/tags/v1.2.3:refs/tags/v1.2.3" ∧
    (containsSub "release-".data "refs/tags/v1.2.3:refs/tags/v1.2.3".data = false) :=
  ⟨rfl, by decide, rfl, by decide⟩

/-- C6 (amended): for every bumped version, the created annotated tag
is named `v<bumped-version>` with the hardcoded prefix `v`, and the
push uses the single ref-spec `refs/tags/<name>:refs/tags/<name>`
where `<name>` is that same tag name; this coincides with the
configured discovery prefix only when that prefix is the default
`"v"`. -/
theorem tag_name_and_refspec (repo : Repo) (v : Version) (hd : Head)
    (hh : repo.head? = some hd) (hbr : hd.isBranch = true)
    (hfresh : repo.tags.contains ("v" ++ versionToString v) = false)
    (horigin : repo.hasOrigin = true) :
    (create_tag v repo).1.tags = repo.tags ++ ["v" ++ versionToString v] ∧
    (create_tag v repo).2 = Except.ok () ∧
    push_tag v repo
        = Except.ok ("refs/tags/" ++ ("v" ++ versionToString v)
            ++ ":refs/tags/" ++ ("v" ++ versionToString v)) := by
  have hns : ¬(("v" ++ versionToString v) ∈ repo.tags) := by
    simpa using hfresh
  refine ⟨?_, ?_, ?_⟩
  · simp [create_tag, hh, hbr, hns]
  · simp [create_tag, hh, hbr, hns]
  · rw [push_tag, if_pos horigin]
    refine congrArg Except.ok (String.ext ?_)
    simp [String.data_append, List.append_assoc]

/-- C6 witness: the amended theorem applied to a fresh repository on
branch `main` with version `1.2.3`. -/
theorem tag_name_and_refspec_witness :
    (create_tag v123 repoFresh).1.tags = repoFresh.tags ++ ["v" ++ versionToString v123] ∧
    (create_tag v123 repoFresh).2 = Except.ok () ∧
    push_tag v123 repoFresh
        = Except.ok ("refs/tags/" ++ ("v" ++ versionToString v123)
            ++ ":refs/tags/" ++ ("v" ++ versionToString v123)) :=
  tag_name_and_refspec repoFresh v123 hdMain rfl rfl (by decide) rfl

/-- C7: the claim describes a helper -> interactive-prompt -> SSH-agent
fallback chain, which is the documented intent (the source carries a
`TODO: prompt password` comment), but the code implements no prompt:
when the remote accepts plaintext user/password and the
credential-helper lookup fails, the callback returns the hardcoded
pair `ymgyt`/`bepythonic2`; whenever user/password is accepted some
plaintext credential is returned (SSH-agent is never reached), and the
agent is attempted only when user/password is not accepted. -/
theorem credentials_hardcoded_no_prompt :
    credentials_cb true none = Cred.userpassPlain "ymgyt" "bepythonic2" ∧
    credentials_cb false none = Cred.sshKeyFromAgent "ymgyt" ∧
    (∀ helperResult, ∃ u p, credentials_cb true helperResult = Cred.userpassPlain u p) := by
  refine ⟨rfl, rfl, ?_⟩
  intro helperResult
  cases helperResult with
  | none => exact ⟨"ymgyt", "bepythonic2", rfl⟩
  | some up =>
    obtain ⟨u, p⟩ := up
    exact ⟨u, p, rfl⟩

/-- C8: for every run of the wired workflow that reaches the
confirmation prompt, any answer whose character is not `y` after ASCII
lowercasing — in particular `n`, or `no` whose first read byte is `n`,
in any letter case — cancels the workflow: the last written line is
`canceled`, the repository (hence its tag set) is unchanged, no push
is modelled anywhere in this workflow, and the returned result maps to
exit status 0. -/
theorem confirm_negative_cancels (b : Bumper) (cur : Version) (lvl : Bump)
    (out : List String) (c : Char) (rest : List Char) (hd : Head)
    (hcur : Bumper.current? b = some cur)
    (hprompt : prompt_bump cur b.input [] = (out, Except.ok (lvl, c :: rest)))
    (hhead : b.repo.head? = some hd)
    (hbr : hd.isBranch = true)
    (hneg : ¬(c.toLower = 'y')) :
    Bumper.bump b =
      (b.repo,
       (out ++ confirmLines b.pfx hd cur (applyBump lvl cur)) ++ ["canceled"],
       Except.ok ()) ∧
    exitCode (Bumper.bump b).2.2 = 0 := by
  have hbeq : (c.toLower == 'y') = false := by
    simpa using hneg
  have hb : Bumper.bump b =
      (b.repo,
       (out ++ confirmLines b.pfx hd cur (applyBump lvl cur)) ++ ["canceled"],
       Except.ok ()) := by
    simp only [Bumper.bump, hcur, hprompt, confirm_bump, hhead, hbr, hbeq,
      if_true, Bool.false_eq_true, if_false]
  exact ⟨hb, by rw [hb]; rfl⟩

/-- C8 witness: the theorem applied to the concrete bumper over a
`v1.2.3` repository whose operator selects `patch` and answers `n`. -/
theorem confirm_negative_cancels_witness :
    Bumper.bump bNeg =
      (bNeg.repo,
       (promptMenu v123 ++ confirmLines (some "v") hdMain v123 (applyBump Bump.Patch v123))
         ++ ["canceled"],
       Except.ok ()) ∧
    exitCode (Bumper.bump bNeg).2.2 = 0 :=
  confirm_negative_cancels bNeg v123 Bump.Patch (promptMenu v123) 'n' [] hdMain
    rfl rfl rfl rfl (by decide)

/-- C9: the workflow actually wired into the binary
(`run` -> `Config::bump` -> `Bumper::bump`) never creates a tag and
never pushes: for every repository and every input sequence the final
repository state equals the initial one (so the tag set is unchanged),
and on a concrete run where the operator selects a bump level and
answers the confirmation affirmatively, `Bumper::bump` still returns
success immediately after the confirmation without invoking tag
creation or push. -/
theorem wired_workflow_never_mutates :
    (∀ (repo : Repo) (input : List Char), (runWorkflow repo input).1 = repo) ∧
    (∀ b : Bumper, (Bumper.bump b).1 = b.repo) ∧
    (Bumper.bump bYes).1 = bYes.repo ∧
    (Bumper.bump bYes).2.2 = Except.ok () := by
  have hb : ∀ b : Bumper, (Bumper.bump b).1 = b.repo := by
    intro b
    rw [Bumper.bump]
    rcases Bumper.current? b with _ | cur
    · rfl
    · rcases hp : prompt_bump cur b.input [] with ⟨out, r⟩
      rcases r with e | lr
      · simp only [hp]
      · rcases lr with ⟨lvl, rest⟩
        simp only [hp]
        rcases hc : confirm_bump b.pfx b.repo cur (applyBump lvl cur) rest out with ⟨out2, r2⟩
        rcases r2 with e2 | cr
        · simp only [hc]
        · rcases cr with ⟨confirmed, rest2⟩
          simp only [hc]
          rcases confirmed with _ | _ <;> rfl
  exact ⟨fun repo input => hb _, hb, hb bYes, rfl⟩

theorem isPfxOf_append_self (p t : List Char) : isPfxOf p (p ++ t) = true := by
  induction p with
  | nil => rfl
  | cons a as ih => simp [isPfxOf, ih]

theorem isPfxOf_nil (p : List Char) : isPfxOf p [] = p.isEmpty := by
  cases p <;> rfl

theorem trimListAux_succ_eq (p : List Char) (g : Nat) (s : List Char) :
    trimListAux p (g + 1) s =
      if p.isEmpty then s
      else if isPfxOf p s then trimListAux p g (s.drop p.length)
      else s := rfl

theorem trimListAux_no (p : List Char) (f : Nat) (s : List Char)
    (h : isPfxOf p s = false) : trimListAux p f s = s := by
  cases f with
  | zero => rfl
  | succ f =>
    have hp : p.isEmpty = false := by
      cases p with
      | nil => simp [isPfxOf] at h
      | cons a as => rfl
    rw [trimListAux_succ_eq, hp, h]
    simp

theorem trimListAux_succ (p : List Char) :
    ∀ (f : Nat) (s : List Char), s.length ≤ f →
      trimListAux p (f + 1) s = trimListAux p f s := by
  intro f
  induction f with
  | zero =>
    intro s hs
    have hnil : s = [] := List.eq_nil_of_length_eq_zero (Nat.le_zero.mp hs)
    subst hnil
    have h00 : trimListAux p 0 [] = [] := rfl
    rw [trimListAux_succ_eq p 0 [], h00]
    simp [List.drop_nil, h00]
  | succ f ih =>
    intro s hs
    by_cases hp : p.isEmpty = true
    · rw [trimListAux_succ_eq p (f + 1) s, trimListAux_succ_eq p f s, hp]
      simp
    · have hp' : p.isEmpty = false := by simpa using hp
      by_cases hpre : isPfxOf p s = true
      · rw [trimListAux_succ_eq p (f + 1) s, trimListAux_succ_eq p f s, hp', hpre]
        simp only [Bool.false_eq_true, if_false, if_true]
        apply ih
        have hplen : 1 ≤ p.length := by
          cases p with
          | nil => simp at hp'
          | cons a as => simp
        rw [List.length_drop]
        omega
      · have h' : isPfxOf p s = false := by simpa using hpre
        rw [trimListAux_no p _ s h', trimListAux_no p _ s h']

theorem trimListAux_ge (p : List Char) (k : Nat) (s : List Char) :
    trimListAux p (s.length + k) s = trimList p s := by
  induction k with
  | zero => rfl
  | succ k ih =>
    have h : s.length + (k + 1) = (s.length + k) + 1 := rfl
    rw [h, trimListAux_succ p (s.length + k) s (Nat.le_add_right _ _), ih]

theorem trimList_no (p s : List Char) (h : isPfxOf p s = false) :
    trimList p s = s :=
  trimListAux_no p s.length s h

theorem trim_cons (p t : List Char) (hp : p ≠ []) :
    trimList p (p ++ t) = trimList p t := by
  cases p with
  | nil => exact absurd rfl hp
  | cons a as =>
    show trimListAux (a :: as) ((a :: as) ++ t).length ((a :: as) ++ t) = _
    have hlen : ((a :: as) ++ t).length = (as ++ t).length + 1 := by simp
    rw [hlen]
    have hpe : (a :: as).isEmpty = false := rfl
    have hpre : isPfxOf (a :: as) ((a :: as) ++ t) = true := isPfxOf_append_self _ _
    rw [trimListAux_succ_eq (a :: as) ((as ++ t).length) ((a :: as) ++ t), hpe, hpre]
    simp only [Bool.false_eq_true, if_false, if_true]
    have hdrop : ((a :: as) ++ t).drop (a :: as).length = t := List.drop_left _ _
    rw [hdrop]
    have hl : (as ++ t).length = t.length + as.length := by
      rw [List.length_append]
      omega
    rw [hl]
    exact trimListAux_ge (a :: as) as.length t

theorem trim_repCat (p s : String) (k : Nat)
    (h : isPfxOf p.data s.data = false) :
    trimStartMatches p (repCat p k s) = s := by
  induction k with
  | zero =>
    show String.mk (trimList p.data s.data) = s
    rw [trimList_no p.data s.data h]
  | succ k ih =>
    show String.mk (trimList p.data ((p ++ repCat p k s) : String).data) = s
    rw [String.data_append]
    have hp : p.data ≠ [] := by
      intro hnil
      rw [hnil] at h
      simp [isPfxOf] at h
    rw [trim_cons p.data (repCat p k s).data hp]
    exact ih

/-- C10 counterexample: pre-pending one copy of the configured prefix
`1` to the valid semver string `1.2.3` yields the tag name `11.2.3`,
whose prefix-stripping removes both leading `1` characters; the result
`.2.3` fails to parse, so the tag contributes an error entry and not
the version `1.2.3` — refuting the claim for prefixes that are
themselves prefixes of the version string. -/
theorem prefix_strip_counterexample :
    Version.parse "1.2.3" = Except.ok v123 ∧
    repCat "1" 1 "1.2.3" = "11.2.3" ∧
    (Bumper.parse_tags (some "1") [repCat "1" 1 "1.2.3"]).1 = [] ∧
    (Bumper.parse_tags (some "1") [repCat "1" 1 "1.2.3"]).2.length = 1 :=
  ⟨rfl, rfl, rfl, rfl⟩

/-- C10 (amended): prefix stripping removes every leading repetition
of the prefix, not just one occurrence: for every k >= 1 and every
valid semver string s that does not itself start with the prefix, a
tag named with k consecutive copies of the prefix followed by s
(e.g. `vv1.2.3` with prefix `v`) parses successfully and contributes
the version s to the valid list rather than an entry to the error
list. -/
theorem trim_strips_all_copies (p s : String) (k : Nat) (v : Version)
    (_hk : 1 ≤ k)
    (hparse : Version.parse s = Except.ok v)
    (hpfx : isPfxOf p.data s.data = false) :
    Version.parse (trimStartMatches p (repCat p k s)) = Except.ok v ∧
    Bumper.parse_tags (some p) [repCat p k s] = ([v], []) := by
  have ht := trim_repCat p s k hpfx
  have hparse2 : Version.parse (trimStartMatches p (repCat p k s)) = Except.ok v := by
    rw [ht, hparse]
  refine ⟨hparse2, ?_⟩
  unfold Bumper.parse_tags
  simp only [Option.getD_some, List.map_cons, List.map_nil, hparse2]
  rfl

/-- C10 witness: the amended theorem applied to prefix `v`, k = 2 and
the version string `1.2.3`, so the doubly-prefixed tag `vv1.2.3`
parses to `1.2.3`. -/
theorem trim_strips_all_copies_witness :
    Version.parse (trimStartMatches "v" (repCat "v" 2 "1.2.3")) = Except.ok v123 ∧
    Bumper.parse_tags (some "v") [repCat "v" 2 "1.2.3"] = ([v123], []) :=
  trim_strips_all_copies "v" "1.2.3" 2 v123 (by decide) rfl rfl

end GitBump
